import Mathlib

/-!
# Verification of pipx (cs01/pipx) against its natural-language specification

This file shallowly embeds the parts of the pipx source that the frozen
claims C1..C10 are about, and proves or refutes each claim.

Conventions used throughout:

* Pure Python functions become Lean functions; stateful code becomes explicit
  state passing over small record types modelling the relevant slice of the
  filesystem or process state.
* External library behaviour (the `packaging.requirements.Requirement`
  constructor, `json.load`, `hashlib.sha256`, `Path.exists`, `Path.resolve`,
  `shutil.which`) is abstracted as an explicit function parameter ("oracle"):
  the claims proved here are independent of the oracle, or carry the oracle's
  documented interface contract as an explicit hypothesis.
* Fallible code returns `Except`; the error value models the raised exception.
-/

namespace Pipx

namespace Util

/-- Split a character list on a single separator character.
Mirrors Python `str.split(sep)` for a one-character separator:
`"".split(sep) == [""]`, and separators produce empty fields. -/
def splitOnCh (sep : Char) : List Char → List (List Char)
  | [] => [[]]
  | c :: rest =>
    let r := splitOnCh sep rest
    if c = sep then [] :: r
    else
      match r with
      | [] => [[c]]
      | h :: t => (c :: h) :: t

/-- The characters of `cs` before the first occurrence of the two-character
sequence `a, b`.  Mirrors Python `cs.split(a + b)[0]` for a two-character
separator string (only index `[0]` of the split is ever used by the source). -/
def takeBefore2 (a b : Char) : List Char → List Char
  | [] => []
  | [c] => [c]
  | c :: d :: rest =>
    if c = a ∧ d = b then []
    else c :: takeBefore2 a b (d :: rest)

/-- Last path component, mirroring `pathlib.PurePath.name` for POSIX-style
absolute file paths (the only paths the embedded code applies it to). -/
def basename (p : String) : String :=
  String.mk ((splitOnCh '/' p.toList).getLastD p.toList)

end Util

namespace PackageSpecifier

/-!
## src/src/pipx/package_specifier.py

`_split_path_extras` uses `re.search(r"(.+)(\[.+\])", package_spec)`.
We embed the exact semantics of that Python regex search: the match starts at
the leftmost possible position `p`; the first (greedy) group `(.+)` then takes
the longest span `cs[p:i]` of non-newline characters such that the rest of the
pattern still matches at `i`; the second group `(\[.+\])` then matches
`cs[i:j+1]` with the inner `.+` greedy, i.e. `j` maximal.  The function
returns `(match.group(1), match.group(2))`, or `(package_spec, "")` when there
is no match.
-/

/-- What `.` matches in Python's default regex mode: any character except a
newline. -/
def dotChar (c : Char) : Bool := c != '\n'

/-- All characters of `cs[a:b]` are matchable by `.` . -/
def sliceAllDot (cs : List Char) (a b : Nat) : Bool :=
  ((cs.drop a).take (b - a)).all dotChar

/-- A triple `(p, i, j)` describes a way the pattern `(.+)(\[.+\])` can match inside
`cs`: group 1 is the non-empty newline-free span `cs[p:i]`, `cs[i] = '['`,
the inner `.+` is the non-empty newline-free span `cs[i+1:j]`, `cs[j] = ']'`. -/
def validTriple (cs : List Char) (p i j : Nat) : Bool :=
  decide (p < i) && decide (i + 1 < j) && decide (j < cs.length) &&
  (cs.getD i ' ' == '[') && (cs.getD j ' ' == ']') &&
  sliceAllDot cs p i && sliceAllDot cs (i + 1) j

/-- Does any match of the pattern start at position `p`? -/
def matchesAt (cs : List Char) (p : Nat) : Bool :=
  (List.range cs.length).any fun i =>
    (List.range cs.length).any fun j => validTriple cs p i j

/-- The `(p, i, j)` chosen by Python's backtracking search: leftmost `p`,
then greedy (maximal) `i`, then greedy (maximal) `j`. -/
def regexSearch (cs : List Char) : Option (Nat × Nat × Nat) :=
  match (List.range cs.length).find? (fun p => matchesAt cs p) with
  | none => none
  | some p =>
    match (List.range cs.length).reverse.find? (fun i =>
        (List.range cs.length).any fun j => validTriple cs p i j) with
    | none => none
    | some i =>
      match (List.range cs.length).reverse.find? (fun j => validTriple cs p i j) with
      | none => none
      | some j => some (p, i, j)

/-- Source `_split_path_extras(package_spec)`: returns `(path, extras_string)`. -/
def split_path_extras (package_spec : String) : String × String :=
  let cs := package_spec.toList
  match regexSearch cs with
  | some (p, i, j) =>
    (String.mk ((cs.drop p).take (i - p)), String.mk ((cs.drop i).take (j + 1 - i)))
  | none => (package_spec, "")

/-- Result type of `_parse_specifier`.  The `Requirement` object held in
`valid_pep508` is represented by the specifier string it was parsed from
(its internal structure is irrelevant to the claims). -/
structure ParsedPackage where
  valid_pep508 : Option String
  valid_url : Option String
  valid_local_path : Option String
deriving DecidableEq, Repr

/-- Source `_parse_specifier(package_spec)`.

Oracles for external behaviour:
* `validReq s` — whether `packaging.requirements.Requirement(s)` succeeds
  (does not raise `InvalidRequirement`);
* `pathExists s` — whether `Path(s).exists()` returns `True` (the source wraps
  this call in `try/except OSError: package_path_exists = False`, so the
  oracle is total);
* `resolvePath s` — `str(Path(s).resolve())`.
-/
def parse_specifier (validReq : String → Bool) (pathExists : String → Bool)
    (resolvePath : String → String) (package_spec : String) :
    Except String ParsedPackage :=
  let valid_pep508 : Option String :=
    if validReq package_spec then some package_spec else none
  let valid_url : Option String :=
    if valid_pep508.isNone then
      if validReq ("notapackagename @ " ++ package_spec) then some package_spec
      else none
    else none
  let valid_local_path : Option String :=
    if valid_pep508.isNone && valid_url.isNone then
      let pe := split_path_extras package_spec
      if pathExists pe.1 then some (resolvePath pe.1 ++ pe.2) else none
    else none
  if valid_pep508.isNone && valid_url.isNone && valid_local_path.isNone then
    Except.error ("Unable to parse package spec: " ++ package_spec)
  else
    Except.ok ⟨valid_pep508, valid_url, valid_local_path⟩

end PackageSpecifier

namespace VenvMod

/-!
## src/pipx/Venv.py — the `Venv` abstraction and its filesystem model

The slice of the filesystem the claims need is the venv root directory: a
finite set of environment directories, each either empty or non-empty.  We
model it as an association list from directory name to a "non-empty" flag.
-/

/-- The venv root directory: name of each subdirectory ↦ whether it is
non-empty.  A name absent from the list does not exist on disk. -/
abbrev World := List (String × Bool)

/-- Python `path.exists()` for a subdirectory of the venv root. -/
def dir_present (w : World) (n : String) : Bool := (w.lookup n).isSome

/-- Python `next(path.iterdir())` succeeds, i.e. the directory is non-empty. -/
def dir_nonempty (w : World) (n : String) : Bool := (w.lookup n).getD false

/-- Python `venv_dir.exists() and next(venv_dir.iterdir())` with the
`except StopIteration: False` wrapper — exists and is non-empty. -/
def exists_nonempty (w : World) (n : String) : Bool :=
  dir_present w n && dir_nonempty w n

/-- Source `rmdir(path)` (`shutil.rmtree`): the directory tree is gone. -/
def rmdir (w : World) (n : String) : World := w.filter (fun e => e.1 != n)

/-- Creating and populating a venv directory (`python -m venv ... root` plus
the files written into it): afterwards the directory exists and is
non-empty. -/
def mk_nonempty_dir (w : World) (n : String) : World := (n, true) :: rmdir w n

/-- The registry: the listing of subdirectories of the venv root
(`VenvContainer` iteration / `pipx_local_venvs.iterdir()`). -/
def registry (w : World) : List String := w.map Prod.fst

/-- The fields of `pipx.Venv.Venv` relevant to removal: the root path and the
`_existing` flag computed in `__init__`. -/
structure Venv where
  root : String
  existing : Bool
deriving DecidableEq, Repr

/-- Source `Venv.__init__`: `self._existing = self.root.exists() and
next(self.root.iterdir())` (with `StopIteration ⇒ False`). -/
def Venv.make (w : World) (path : String) : Venv :=
  { root := path, existing := exists_nonempty w path }

/-- Source `Venv.safe_to_remove`: `not self._existing`. -/
def Venv.safe_to_remove (v : Venv) : Bool := !v.existing

/-- Source `Venv.remove_venv`: delete the tree only when safe to remove, otherwise
only log a warning and leave the filesystem untouched. -/
def Venv.remove_venv (v : Venv) (w : World) : World :=
  if v.safe_to_remove then rmdir w v.root else w

theorem lookup_rmdir_self (w : World) (n : String) :
    (rmdir w n).lookup n = none := by
  induction w with
  | nil => rfl
  | cons e t ih =>
    obtain ⟨k, v⟩ := e
    by_cases h : k = n
    · simpa [rmdir, List.filter_cons, h] using ih
    · have hk : (n == k) = false := beq_eq_false_iff_ne.mpr (fun hh => h hh.symm)
      simp only [rmdir, List.filter_cons] at ih ⊢
      simp only [bne_iff_ne, ne_eq, h, not_false_iff, decide_True, if_true,
        List.lookup_cons, hk]
      exact ih

theorem lookup_rmdir_other (w : World) (n m : String) (h : m ≠ n) :
    (rmdir w n).lookup m = w.lookup m := by
  induction w with
  | nil => rfl
  | cons e t ih =>
    obtain ⟨k, v⟩ := e
    by_cases he : k = n
    · subst he
      have hk : (m == k) = false := beq_eq_false_iff_ne.mpr h
      have l1 : rmdir ((k, v) :: t) k = rmdir t k := by
        simp [rmdir, List.filter_cons]
      rw [l1, ih, List.lookup_cons]
      simp only [hk]
    · simp only [rmdir, List.filter_cons] at ih ⊢
      simp only [bne_iff_ne, ne_eq, he, not_false_iff, decide_True, if_true,
        List.lookup_cons]
      cases hm : (m == k) with
      | true => rfl
      | false => exact ih

theorem not_mem_registry_rmdir (w : World) (n : String) :
    n ∉ registry (rmdir w n) := by
  intro hmem
  simp only [registry, rmdir, List.mem_map] at hmem
  obtain ⟨e, he, hn⟩ := hmem
  rw [List.mem_filter] at he
  rw [hn] at he
  simp at he

theorem dir_present_rmdir_self (w : World) (n : String) :
    dir_present (rmdir w n) n = false := by
  simp [dir_present, lookup_rmdir_self]

end VenvMod

namespace InstallCmd

/-!
## src/src/pipx/commands/install.py — the `install` command

`install` determines the package name (`package_name_from_spec`, an external
subprocess, which runs before any venv directory is touched: we take the
resulting venv directory name as an input), checks whether the venv directory
already exists and is non-empty, constructs a `Venv` (recording the
pre-existed flag), and then runs `create_venv`, `install_package` and
`run_post_install_actions` inside a `try` block whose
`except (Exception, KeyboardInterrupt)` handler calls `venv.remove_venv()`
and re-raises.  Each of the three steps may raise (installer exit code,
subprocess failure, ...); which one does is an oracle. -/

open VenvMod

/-- Which step of the `try` block raises. -/
inductive Stage
  | create_venv
  | install_package
  | post_install
deriving DecidableEq, Repr

/-- Success/failure of each step of the install flow. -/
structure Oracles where
  create_ok : Bool
  install_ok : Bool
  post_ok : Bool
deriving DecidableEq, Repr

/-- Outcome of the `install` command. -/
inductive InstallResult
  | already_installed
  | ok
  | raised (s : Stage)
deriving DecidableEq, Repr

/-- The `install` command, from the exists-check onwards.  Returns the final
filesystem state of the venv root together with the outcome; `raised s` means
the exception from stage `s` propagated out of `install`. -/
def install (w : World) (venv_name : String) (force : Bool) (o : Oracles) :
    World × InstallResult :=
  let ex := exists_nonempty w venv_name
  if ex && !force then (w, InstallResult.already_installed)
  else
    -- `venv = Venv(venv_dir, ...)` records the pre-existed flag now
    let venv := Venv.make w venv_name
    -- `venv.create_venv(...)` materializes and populates the directory
    let w1 := mk_nonempty_dir w venv_name
    if !o.create_ok then (venv.remove_venv w1, InstallResult.raised Stage.create_venv)
    else if !o.install_ok then (venv.remove_venv w1, InstallResult.raised Stage.install_package)
    else if !o.post_ok then (venv.remove_venv w1, InstallResult.raised Stage.post_install)
    else (w1, InstallResult.ok)

end InstallCmd

namespace SharedLibsMod

/-!
## src/src/pipx/shared_libs.py — the `_SharedLibs` singleton

State slice: the process-local `has_been_updated_this_run` flag, whether the
shared environment's interpreter (`python_path`) and installer (`pip_path`)
binaries exist, the modification time of the pip binary, and the contents of
the `pipx_freeze.txt` manifest (`none` models a read failing with `IOError`).

Subprocess outcomes are oracles: `venv_ok` for `python -m venv --clear`,
`pip_ok` for the whole `try` block of `upgrade` (the pip install, the freeze,
the manifest write).  Times are integers (seconds). -/

/-- Source `_SharedLibs.required_packages`. -/
def required_packages : List String :=
  ["pip", "wheel", "packaging", "importlib-metadata", "setuptools"]

/-- Source `SHARED_LIBS_MAX_AGE_SEC = datetime.timedelta(days=30).total_seconds()`. -/
def SHARED_LIBS_MAX_AGE_SEC : Int := 2592000

structure SharedState where
  has_been_updated_this_run : Bool
  python_exists : Bool
  pip_exists : Bool
  pip_mtime : Int
  manifest : Option String
deriving DecidableEq, Repr

/-- Source `_SharedLibs.test_has_required_packages`: read `pipx_freeze.txt`
(`IOError ⇒ False`), split into lines, keep the part of each line before the
first `==`, and check that every required package name is among them. -/
def test_has_required_packages (manifest : Option String) : Bool :=
  match manifest with
  | none => false
  | some s =>
    let installed_packages :=
      (Util.splitOnCh '\n' s.toList).map fun x => String.mk (Util.takeBefore2 '=' '=' x)
    required_packages.all fun r => installed_packages.contains r

/-- Source `_SharedLibs.is_valid` (the `has_required_packages` cache is empty on a
fresh instance, so the property equals `test_has_required_packages`). -/
def is_valid (st : SharedState) : Bool :=
  st.python_exists && st.pip_exists && test_has_required_packages st.manifest

/-- Source `_SharedLibs.needs_upgrade` at wall-clock time `now`. -/
def needs_upgrade (st : SharedState) (now : Int) : Bool :=
  if st.has_been_updated_this_run then false
  else if !st.pip_exists then true
  else decide (now - st.pip_mtime > SHARED_LIBS_MAX_AGE_SEC)

/-- Externally visible effects of `_SharedLibs.create`/`upgrade`. -/
inductive Effect
  | venv_clear
  | pip_install_upgrade
deriving DecidableEq, Repr

/-- The body of `_SharedLibs.upgrade` after its two early returns
(`has_been_updated_this_run`, missing `python_path`): runs
`pip install --upgrade` on the required packages inside a `try` block; on
success writes the freeze manifest, sets the per-run flag and touches the pip
binary; any exception is logged and swallowed. -/
def upgrade_body (st : SharedState) (pip_ok : Bool) (freeze_out : String)
    (now : Int) : SharedState × List Effect :=
  if pip_ok then
    ({ st with manifest := some freeze_out
             , has_been_updated_this_run := true
             , pip_exists := true
             , pip_mtime := now }, [Effect.pip_install_upgrade])
  else (st, [Effect.pip_install_upgrade])

/-- Source `_SharedLibs.create`: a no-op unless `is_valid` fails; otherwise runs
`python -m venv --clear` (raising `PipxError` if it exits non-zero — the
state the failed tool leaves behind is not observed by any caller, so the
error case carries no state) and then `upgrade(pip_args=["--force-reinstall"])`,
whose early-return guards are replayed here (after `--clear` the interpreter
and pip exist and the manifest is gone). -/
def create (st : SharedState) (venv_ok pip_ok : Bool) (freeze_out : String)
    (now : Int) : Except String (SharedState × List Effect) :=
  if is_valid st then Except.ok (st, [])
  else if !venv_ok then Except.error "shared venv creation failed"
  else
    let st1 : SharedState :=
      { st with python_exists := true, pip_exists := true, pip_mtime := now
              , manifest := none }
    if st1.has_been_updated_this_run then Except.ok (st1, [Effect.venv_clear])
    else
      let r := upgrade_body st1 pip_ok freeze_out now
      Except.ok (r.1, Effect.venv_clear :: r.2)

/-- Source `_SharedLibs.upgrade`. -/
def upgrade (st : SharedState) (venv_ok pip_ok : Bool) (freeze_out : String)
    (now : Int) : Except String (SharedState × List Effect) :=
  if st.has_been_updated_this_run then Except.ok (st, [])
  else if !st.python_exists then create st venv_ok pip_ok freeze_out now
  else Except.ok (upgrade_body st pip_ok freeze_out now)

end SharedLibsMod

namespace PipxrcMod

/-!
## src/pipx/pipxrc.py — persisted per-environment metadata

`Pipxrc.read` opens `pipxrc.json` and feeds `json.load`'s result to
`PipxrcInfo.from_dict`, inside `try: ... except IOError: ... self.reset()`.
Only `IOError` is caught: we model "open/read failed with IOError" as
`file_content = none`.  `json.load` on present-but-corrupt contents raises
`json.JSONDecodeError` (a `ValueError`), and `from_dict` on a well-formed
JSON document missing expected keys raises `KeyError`; neither is an
`IOError`.  Both are folded into the oracle
`json_load : String → Except JsonErr PipxrcInfo` (a successful result is the
fully decoded info record). -/

structure PipxVenvMetadata where
  binaries : List String
  binary_paths : List String
  binaries_of_dependencies : List String
  binary_paths_of_dependencies : List (String × List String)
  package_version : String
  python_version : String
deriving DecidableEq, Repr

structure InstallOptions where
  pip_args : Option (List String)
  venv_args : Option (List String)
  include_dependencies : Option Bool
deriving DecidableEq, Repr

structure InjectedPackage where
  pip_args : List String
  verbose : Bool
  include_apps : Bool
  include_dependencies : Bool
  force : Bool
deriving DecidableEq, Repr

structure PipxrcInfo where
  package_or_url : Option String
  install : InstallOptions
  venv_metadata : Option PipxVenvMetadata
  injected_packages : Option (List (String × InjectedPackage))
deriving DecidableEq, Repr

/-- The state `PipxrcInfo.__init__` (and hence `Pipxrc.reset`) produces:
every field `None`, meaning "legacy installation, unknown details". -/
def PipxrcInfo.default : PipxrcInfo := ⟨none, ⟨none, none, none⟩, none, none⟩

/-- An exception raised while decoding the file contents
(`json.JSONDecodeError`, `KeyError`, ...). -/
structure JsonErr where
deriving DecidableEq, Repr

/-- Source `Pipxrc._val_or_default`. -/
def val_or_default {α : Type} (value : Option α) (default : α) : α :=
  match value with
  | some v => v
  | none => default

def get_package_or_url (info : PipxrcInfo) (default : String) : String :=
  val_or_default info.package_or_url default

def get_install_pip_args (info : PipxrcInfo) (default : List String) : List String :=
  val_or_default info.install.pip_args default

def get_install_venv_args (info : PipxrcInfo) (default : List String) : List String :=
  val_or_default info.install.venv_args default

def get_install_include_dependencies (info : PipxrcInfo) (default : Bool) : Bool :=
  val_or_default info.install.include_dependencies default

def get_venv_metadata (info : PipxrcInfo) (default : PipxVenvMetadata) :
    PipxVenvMetadata :=
  val_or_default info.venv_metadata default

def get_injected_packages (info : PipxrcInfo)
    (default : List (String × InjectedPackage)) : List (String × InjectedPackage) :=
  val_or_default info.injected_packages default

/-- Source `Pipxrc.read`: the result is the in-memory `pipxrc_info` after the call
(`.ok`), or the exception that escapes (`.error`). -/
def read (json_load : String → Except JsonErr PipxrcInfo)
    (file_content : Option String) : Except JsonErr PipxrcInfo :=
  match file_content with
  | none => Except.ok PipxrcInfo.default
  | some s =>
    match json_load s with
    | Except.ok info => Except.ok info
    | Except.error e => Except.error e

end PipxrcMod

namespace Main

/-!
## src/pipx/main.py — `upgrade`, `upgrade_all`, `uninstall`, `uninstall_all`

Per-environment behaviour the bulk operations observe:

* `upgrade(venv_dir, package, package_or_url, verbose, upgrading_all)`:
  raises `PipxError` when `venv_dir` is not a directory; runs
  `venv.upgrade_package` (which raises `PipxError` when the pip subprocess
  exits non-zero); compares the package version before and after; when
  unchanged, prints "... is already at latest version ..." (suppressed when
  `upgrading_all`) and returns 0 without calling
  `expose_binaries_globally`; when changed, re-exposes binaries and
  returns 1.
* `upgrade_all` / `uninstall_all` iterate `pipx_local_venvs.iterdir()` and
  invoke the single-environment operation on each entry **with no
  try/except**: an exception aborts the loop and propagates.

The observable subprocess behaviour of one environment is an `UpgradeEnv`
oracle record; printing is modelled by returning the list of messages; the
shim-exposure step is modelled by a flag recording whether
`expose_binaries_globally` was invoked. -/

structure UpgradeEnv where
  is_dir : Bool
  old_version : Option String
  pip_ok : Bool
  new_version : Option String
deriving DecidableEq, Repr

inductive Msg
  | already_latest (pkg : String)
  | upgraded (pkg : String)
deriving DecidableEq, Repr

/-- Output of a completed `upgrade` call: the messages printed, whether
`expose_binaries_globally` ran, and the returned count (0 or 1). -/
structure UpgradeOut where
  msgs : List Msg
  exposed : Bool
  ret : Nat
deriving DecidableEq, Repr

/-- Source `upgrade` from src/pipx/main.py (the error strings stand for the
`PipxError` messages raised there). -/
def upgrade (pkg : String) (e : UpgradeEnv) (upgrading_all : Bool) :
    Except String UpgradeOut :=
  if !e.is_dir then
    Except.error ("Package is not installed. Expected to find " ++ pkg)
  else if !e.pip_ok then
    Except.error "pip upgrade command failed"
  else if e.old_version == e.new_version then
    Except.ok ⟨if upgrading_all then [] else [Msg.already_latest pkg], false, 0⟩
  else
    Except.ok ⟨[Msg.upgraded pkg], true, 1⟩

/-- Source `upgrade_all`: iterates the registry in directory-listing order.  Returns
the list of environments on which `upgrade` was invoked, and either the total
count of upgraded packages or the first propagated exception.  (The final
"Versions did not change ..." print, emitted when the returned count is 0, is
elided.) -/
def upgrade_all (envs : List (String × UpgradeEnv)) :
    List String × Except String Nat :=
  match envs with
  | [] => ([], Except.ok 0)
  | (n, e) :: rest =>
    match upgrade n e true with
    | Except.error msg => ([n], Except.error msg)
    | Except.ok r =>
      let res := upgrade_all rest
      (n :: res.1,
        match res.2 with
        | Except.error m => Except.error m
        | Except.ok k => Except.ok (k + r.ret))

/-- Source `uninstall` as observed by `uninstall_all`: every directory handed over
by `iterdir()` exists, so the not-installed early return does not trigger;
symlink removal and `rmdir` (`shutil.rmtree`) may raise `OSError`, which is
not caught (`rm_ok` oracle). -/
def uninstall (pkg : String) (rm_ok : Bool) : Except String Unit :=
  if rm_ok then Except.ok () else Except.error ("rmtree failed for " ++ pkg)

/-- Source `uninstall_all`: same no-try/except iteration as `upgrade_all`. -/
def uninstall_all (envs : List (String × Bool)) :
    List String × Except String Unit :=
  match envs with
  | [] => ([], Except.ok ())
  | (n, ok) :: rest =>
    match uninstall n ok with
    | Except.error m => ([n], Except.error m)
    | Except.ok _ =>
      let res := uninstall_all rest
      (n :: res.1, res.2)

theorem upgrade_all_processed_append (pre rest : List (String × UpgradeEnv))
    (h : ∀ p ∈ pre, ∃ r, upgrade p.1 p.2 true = Except.ok r) :
    (upgrade_all (pre ++ rest)).1 = pre.map Prod.fst ++ (upgrade_all rest).1
    ∧ (∀ m, (upgrade_all rest).2 = Except.error m →
        (upgrade_all (pre ++ rest)).2 = Except.error m) := by
  induction pre with
  | nil => exact ⟨rfl, fun m hm => hm⟩
  | cons p t ih =>
    obtain ⟨n, e⟩ := p
    obtain ⟨r, hr⟩ := h (n, e) (List.mem_cons_self _ _)
    have ht : ∀ q ∈ t, ∃ r, upgrade q.1 q.2 true = Except.ok r :=
      fun q hq => h q (List.mem_cons_of_mem _ hq)
    obtain ⟨ih1, ih2⟩ := ih ht
    constructor
    · simp only [List.cons_append, upgrade_all, hr, List.append_eq, ih1, List.map_cons]
    · intro m hm
      simp only [List.cons_append, upgrade_all, hr, List.append_eq, ih2 m hm]

theorem upgrade_all_all_ok (envs : List (String × UpgradeEnv))
    (h : ∀ p ∈ envs, ∃ r, upgrade p.1 p.2 true = Except.ok r) :
    (upgrade_all envs).1 = envs.map Prod.fst := by
  have h2 := upgrade_all_processed_append envs [] h
  simpa [upgrade_all] using h2.1

theorem uninstall_all_processed_append (pre rest : List (String × Bool))
    (h : ∀ p ∈ pre, p.2 = true) :
    (uninstall_all (pre ++ rest)).1 = pre.map Prod.fst ++ (uninstall_all rest).1
    ∧ (uninstall_all (pre ++ rest)).2 = (uninstall_all rest).2 := by
  induction pre with
  | nil => exact ⟨rfl, rfl⟩
  | cons p t ih =>
    obtain ⟨n, ok⟩ := p
    have hok : ok = true := h (n, ok) (List.mem_cons_self _ _)
    have ht : ∀ q ∈ t, q.2 = true := fun q hq => h q (List.mem_cons_of_mem _ hq)
    obtain ⟨ih1, ih2⟩ := ih ht
    subst hok
    constructor
    · simp only [List.cons_append, uninstall_all, uninstall, if_true, List.append_eq,
        ih1, List.map_cons]
    · simp only [List.cons_append, uninstall_all, uninstall, if_true, List.append_eq,
        ih2]

end Main

namespace ShimMod

/-!
## src/pipx/main.py — `_symlink_package_binaries` (symlink-based platforms)

The shared bin directory is an association list from entry name to what the
directory entry is: a regular file (`BinEntry.file`, e.g. a user-created
file) or a symlink with a stored target path (`BinEntry.link`).  `real` is
the set of paths of actually existing files (the venv bin directories' app
files); paths are compared literally, i.e. every path is already in resolved
form.

* `symlink_path.exists()` follows symlinks: true for a regular file, and for
  a symlink only when its target exists (`entry_exists`).
* `symlink_path.samefile(b)` compares resolved inodes: in this model, true
  exactly when the entry is a symlink whose target is `b` (`same_file`).
* `symlink_path.symlink_to(b)` raises `FileExistsError` when a directory
  entry (e.g. a dangling symlink) is already present.
* `which(binary)` is the `which_finds` oracle; a truthy result on creation
  produces the "already on your PATH" warning, modelled as
  `Warning.shadow`; the "File exists ... Not creating." warning is
  `Warning.conflict`.
-/

inductive BinEntry
  | file
  | link (target : String)
deriving DecidableEq, Repr

inductive Warning
  | conflict (name : String)
  | shadow (name : String)
deriving DecidableEq, Repr

def Warning.isConflict : Warning → Bool
  | conflict _ => true
  | shadow _ => false

abbrev BinDir := List (String × BinEntry)

/-- Does a directory entry, followed through symlinks, denote an existing
file? -/
def entryOk (real : List String) : BinEntry → Bool
  | BinEntry.file => true
  | BinEntry.link t => real.contains t

/-- Python `Path(local_bin_dir / name).exists()`. -/
def entry_exists (real : List String) (d : BinDir) (name : String) : Bool :=
  match d.lookup name with
  | none => false
  | some e => entryOk real e

/-- Python `symlink_path.samefile(b)`. -/
def same_file (d : BinDir) (name b : String) : Bool :=
  match d.lookup name with
  | some (BinEntry.link t) => t == b
  | _ => false

/-- One iteration of the `for b in binary_paths` loop. -/
def expose_step (which_finds : String → Bool) (real : List String) (d : BinDir)
    (b : String) : Except String (BinDir × List Warning) :=
  let name := Util.basename b
  if entry_exists real d name then
    if same_file d name b then Except.ok (d, [])
    else Except.ok (d, [Warning.conflict name])
  else
    match d.lookup name with
    | some _ => Except.error "FileExistsError"
    | none =>
      Except.ok ((name, BinEntry.link b) :: d,
        if which_finds name then [Warning.shadow name] else [])

/-- Source `_symlink_package_binaries(local_bin_dir, binary_paths, package)`:
processes the app paths in order; an uncaught exception aborts the loop. -/
def symlink_package_binaries (which_finds : String → Bool) (real : List String)
    (d : BinDir) (bs : List String) : Except String (BinDir × List Warning) :=
  match bs with
  | [] => Except.ok (d, [])
  | b :: rest =>
    match expose_step which_finds real d b with
    | Except.error e => Except.error e
    | Except.ok (d1, w1) =>
      match symlink_package_binaries which_finds real d1 rest with
      | Except.error e => Except.error e
      | Except.ok (d2, w2) => Except.ok (d2, w1 ++ w2)

theorem expose_step_lookup_mono (wf : String → Bool) (real : List String)
    (d : BinDir) (b : String) (d1 : BinDir) (w1 : List Warning)
    (h : expose_step wf real d b = Except.ok (d1, w1)) (name : String)
    (e : BinEntry) (hl : d.lookup name = some e) : d1.lookup name = some e := by
  simp only [expose_step] at h
  by_cases hex : entry_exists real d (Util.basename b) = true
  · by_cases hsf : same_file d (Util.basename b) b = true
    · simp only [hex, if_true, hsf] at h
      obtain ⟨h1, _⟩ := Prod.mk.injEq .. ▸ (Except.ok.injEq .. ▸ h)
      rw [← h1]; exact hl
    · simp only [hex, if_true, hsf, Bool.false_eq_true, if_false] at h
      obtain ⟨h1, _⟩ := Prod.mk.injEq .. ▸ (Except.ok.injEq .. ▸ h)
      rw [← h1]; exact hl
  · simp only [hex, Bool.false_eq_true, if_false] at h
    cases hlk : d.lookup (Util.basename b) with
    | some e2 => simp [hlk] at h
    | none =>
      simp only [hlk] at h
      obtain ⟨h1, _⟩ := Prod.mk.injEq .. ▸ (Except.ok.injEq .. ▸ h)
      rw [← h1, List.lookup_cons]
      have hne : (name == Util.basename b) = false := by
        apply beq_eq_false_iff_ne.mpr
        intro hc
        rw [hc, hlk] at hl
        exact Option.noConfusion hl
      simp only [hne]
      exact hl

theorem symlink_lookup_mono (wf : String → Bool) (real : List String)
    (bs : List String) (d : BinDir) (d2 : BinDir) (w : List Warning)
    (h : symlink_package_binaries wf real d bs = Except.ok (d2, w))
    (name : String) (e : BinEntry) (hl : d.lookup name = some e) :
    d2.lookup name = some e := by
  induction bs generalizing d w with
  | nil =>
    simp only [symlink_package_binaries] at h
    obtain ⟨h1, _⟩ := Prod.mk.injEq .. ▸ (Except.ok.injEq .. ▸ h)
    rw [← h1]; exact hl
  | cons b rest ih =>
    simp only [symlink_package_binaries] at h
    cases hstep : expose_step wf real d b with
    | error e2 =>
      simp only [hstep] at h
      exact Except.noConfusion h
    | ok p =>
      obtain ⟨d1, w1⟩ := p
      simp only [hstep] at h
      cases hrest : symlink_package_binaries wf real d1 rest with
      | error e2 =>
        simp only [hrest] at h
        exact Except.noConfusion h
      | ok q =>
        obtain ⟨d2q, w2⟩ := q
        simp only [hrest, Except.ok.injEq, Prod.mk.injEq] at h
        obtain ⟨h1, _⟩ := h
        rw [h1] at hrest
        exact ih d1 w2 hrest
          (expose_step_lookup_mono wf real d b d1 w1 hstep name e hl)

theorem entry_exists_of_lookup (real : List String) (d : BinDir) (name : String)
    (e : BinEntry) (hl : d.lookup name = some e) (he : entryOk real e = true) :
    entry_exists real d name = true := by
  simp [entry_exists, hl, he]

theorem entry_exists_elim (real : List String) (d : BinDir) (name : String)
    (h : entry_exists real d name = true) :
    ∃ e, d.lookup name = some e ∧ entryOk real e = true := by
  simp only [entry_exists] at h
  cases hl : d.lookup name with
  | none => rw [hl] at h; exact Bool.noConfusion h
  | some e => rw [hl] at h; exact ⟨e, rfl, h⟩

theorem same_file_elim (d : BinDir) (name b : String)
    (h : same_file d name b = true) :
    d.lookup name = some (BinEntry.link b) := by
  simp only [same_file] at h
  cases hl : d.lookup name with
  | none => rw [hl] at h; exact Bool.noConfusion h
  | some e =>
    cases e with
    | file => rw [hl] at h; exact Bool.noConfusion h
    | link t =>
      rw [hl] at h
      simp only [beq_iff_eq] at h
      rw [h]

/-- After a successful expose pass, every processed app path has an existing
destination entry in the resulting directory, and that entry either resolves
to the app path or a conflict warning for it was emitted. -/
theorem symlink_coverage (wf : String → Bool) (real : List String)
    (bs : List String) (d d2 : BinDir) (w : List Warning)
    (h : symlink_package_binaries wf real d bs = Except.ok (d2, w))
    (hreal : ∀ b ∈ bs, real.contains b = true) :
    ∀ b ∈ bs, entry_exists real d2 (Util.basename b) = true ∧
      (same_file d2 (Util.basename b) b = true ∨
        Warning.conflict (Util.basename b) ∈ w) := by
  induction bs generalizing d w with
  | nil => intro b hb; exact absurd hb (List.not_mem_nil b)
  | cons bhd rest ih =>
    intro b hb
    simp only [symlink_package_binaries] at h
    cases hstep : expose_step wf real d bhd with
    | error e2 =>
      simp only [hstep] at h
      exact Except.noConfusion h
    | ok p =>
      obtain ⟨d1, w1⟩ := p
      simp only [hstep] at h
      cases hrest : symlink_package_binaries wf real d1 rest with
      | error e2 =>
        simp only [hrest] at h
        exact Except.noConfusion h
      | ok q =>
        obtain ⟨d2q, w2⟩ := q
        simp only [hrest, Except.ok.injEq, Prod.mk.injEq] at h
        obtain ⟨h1, h2⟩ := h
        rw [h1] at hrest
        rcases List.mem_cons.mp hb with hbeq | hbrest
        · subst hbeq
          simp only [expose_step] at hstep
          by_cases hex : entry_exists real d (Util.basename b) = true
          · by_cases hsf : same_file d (Util.basename b) b = true
            · simp only [hex, if_true, hsf, Except.ok.injEq, Prod.mk.injEq] at hstep
              obtain ⟨hd1, _⟩ := hstep
              have hld : d.lookup (Util.basename b) = some (BinEntry.link b) :=
                same_file_elim d _ b hsf
              have hld2 : d2.lookup (Util.basename b) = some (BinEntry.link b) :=
                symlink_lookup_mono wf real rest d1 d2 w2 hrest _ _ (hd1 ▸ hld)
              refine ⟨entry_exists_of_lookup real d2 _ _ hld2 ?_, Or.inl ?_⟩
              · obtain ⟨e, hle, hoke⟩ := entry_exists_elim real d _ hex
                rw [hld] at hle
                cases hle
                exact hoke
              · simp [same_file, hld2]
            · simp only [hex, if_true, hsf, Bool.false_eq_true, if_false,
                Except.ok.injEq, Prod.mk.injEq] at hstep
              obtain ⟨hd1, hw1⟩ := hstep
              obtain ⟨e, hle, hoke⟩ := entry_exists_elim real d _ hex
              have hld2 : d2.lookup (Util.basename b) = some e :=
                symlink_lookup_mono wf real rest d1 d2 w2 hrest _ _ (hd1 ▸ hle)
              refine ⟨entry_exists_of_lookup real d2 _ _ hld2 hoke, Or.inr ?_⟩
              rw [← h2, ← hw1]
              exact List.mem_append_left _ (List.mem_singleton_self _)
          · simp only [hex, Bool.false_eq_true, if_false] at hstep
            cases hlk : d.lookup (Util.basename b) with
            | some e2 =>
              simp only [hlk] at hstep
              exact Except.noConfusion hstep
            | none =>
              simp only [hlk, Except.ok.injEq, Prod.mk.injEq] at hstep
              obtain ⟨hd1, _⟩ := hstep
              have hld1 : d1.lookup (Util.basename b) = some (BinEntry.link b) := by
                rw [← hd1, List.lookup_cons]
                simp
              have hld2 : d2.lookup (Util.basename b) = some (BinEntry.link b) :=
                symlink_lookup_mono wf real rest d1 d2 w2 hrest _ _ hld1
              refine ⟨entry_exists_of_lookup real d2 _ _ hld2 ?_, Or.inl ?_⟩
              · simpa [entryOk] using hreal b (List.mem_cons_self _ _)
              · simp [same_file, hld2]
        · have hres := ih d1 w2 hrest
            (fun x hx => hreal x (List.mem_cons_of_mem _ hx)) b hbrest
          refine ⟨hres.1, hres.2.elim Or.inl (fun hc => Or.inr ?_)⟩
          rw [← h2]
          exact List.mem_append_right _ hc

/-- When every processed app path already has an existing destination entry,
an expose pass changes nothing: the directory is returned unchanged and the
only warnings are conflict warnings for entries not resolving to the app. -/
theorem symlink_fixpoint (wf : String → Bool) (real : List String)
    (bs : List String) (d : BinDir)
    (hex : ∀ b ∈ bs, entry_exists real d (Util.basename b) = true) :
    ∃ w2, symlink_package_binaries wf real d bs = Except.ok (d, w2) ∧
      ∀ x ∈ w2, ∃ b, b ∈ bs ∧ x = Warning.conflict (Util.basename b) ∧
        same_file d (Util.basename b) b = false := by
  induction bs with
  | nil => exact ⟨[], rfl, fun x hx => absurd hx (List.not_mem_nil x)⟩
  | cons bhd rest ih =>
    obtain ⟨w2, hw2, hprop⟩ := ih (fun b hb => hex b (List.mem_cons_of_mem _ hb))
    have hexhd : entry_exists real d (Util.basename bhd) = true :=
      hex bhd (List.mem_cons_self _ _)
    by_cases hsf : same_file d (Util.basename bhd) bhd = true
    · refine ⟨w2, ?_, ?_⟩
      · simp only [symlink_package_binaries, expose_step, hexhd, if_true, hsf,
          hw2]
        simp
      · intro x hx
        obtain ⟨b, hb, hform, hsame⟩ := hprop x hx
        exact ⟨b, List.mem_cons_of_mem _ hb, hform, hsame⟩
    · refine ⟨Warning.conflict (Util.basename bhd) :: w2, ?_, ?_⟩
      · simp only [symlink_package_binaries, expose_step, hexhd, if_true, hsf,
          Bool.false_eq_true, if_false, hw2]
        simp
      · intro x hx
        rcases List.mem_cons.mp hx with hxeq | hxrest
        · exact ⟨bhd, List.mem_cons_self _ _, hxeq,
            Bool.eq_false_iff.mpr hsf⟩
        · obtain ⟨b, hb, hform, hsame⟩ := hprop x hxrest
          exact ⟨b, List.mem_cons_of_mem _ hb, hform, hsame⟩

end ShimMod

namespace RunCmd

/-!
## src/src/pipx/commands/run.py — `_get_temporary_venv_path`

`hashlib.sha256` is abstracted as `sha256 : String → List Nat` returning the
digest bytes; its documented interface (32 bytes, each < 256) is carried as a
hypothesis where needed.  The source feeds the hash four chunks via
`m.update(chunk.encode())`; incremental updates hash the concatenation of the
chunks, and UTF-8 encoding maps string concatenation to byte concatenation,
so the digest input is the single string
`package_or_url + python + "".join(pip_args) + "".join(venv_args)`.
`m.hexdigest()` formats each digest byte as two lowercase hex characters. -/

/-- One lowercase hex digit, as produced by `%x` formatting (callers always
pass `n < 16`). -/
def hex_digit (n : Nat) : Char :=
  if n < 10 then Char.ofNat (48 + n) else Char.ofNat (87 + n)

/-- Two lowercase hex characters of one digest byte. -/
def byte_to_hex (b : Nat) : List Char :=
  [hex_digit (b / 16), hex_digit (b % 16)]

/-- Python `m.hexdigest()` over the digest bytes. -/
def hexdigest (digest : List Nat) : List Char :=
  (digest.map byte_to_hex).flatten

/-- The sixteen characters a lowercase hex digest is made of. -/
def hex_chars : List Char := "0123456789abcdef".toList

/-- Source `_get_temporary_venv_path(package_or_url, python, pip_args, venv_args)`:
`m.hexdigest()[0:15]` under the cache root. -/
def get_temporary_venv_path (sha256 : String → List Nat) (cachedir : String)
    (package_or_url python : String) (pip_args venv_args : List String) :
    String :=
  let m := package_or_url ++ python ++ String.join pip_args ++ String.join venv_args
  let venv_folder_name := String.mk ((hexdigest (sha256 m)).take 15)
  cachedir ++ "/" ++ venv_folder_name

/-- In `run`, the cached venv directory is computed from exactly the four
arguments above; the application arguments are in scope at the call site but
are not passed to `_get_temporary_venv_path`. -/
def run_choose_venv_dir (sha256 : String → List Nat) (cachedir : String)
    (package_or_url python : String)
    (pip_args venv_args _app_args : List String) : String :=
  get_temporary_venv_path sha256 cachedir package_or_url python pip_args venv_args

theorem hexdigest_length (digest : List Nat) :
    (hexdigest digest).length = 2 * digest.length := by
  induction digest with
  | nil => rfl
  | cons b t ih =>
    simp only [hexdigest, List.map_cons, List.flatten_cons, byte_to_hex,
      List.length_append, List.length_cons, List.length_nil] at ih ⊢
    omega

theorem hex_digit_mem (n : Nat) (h : n < 16) : hex_digit n ∈ hex_chars := by
  interval_cases n <;> decide

theorem hexdigest_mem (digest : List Nat) (hb : ∀ b ∈ digest, b < 256) :
    ∀ c ∈ hexdigest digest, c ∈ hex_chars := by
  induction digest with
  | nil => intro c hc; exact absurd hc (List.not_mem_nil c)
  | cons b t ih =>
    intro c hc
    simp only [hexdigest, List.map_cons, List.flatten_cons] at hc
    rcases List.mem_append.mp hc with hhd | htl
    · have hblt : b < 256 := hb b (List.mem_cons_self _ _)
      simp only [byte_to_hex, List.mem_cons, List.not_mem_nil, or_false] at hhd
      rcases hhd with h1 | h2
      · rw [h1]
        exact hex_digit_mem _ (Nat.div_lt_of_lt_mul (by omega))
      · rw [h2]
        exact hex_digit_mem _ (Nat.mod_lt _ (by omega))
    · exact ih (fun x hx => hb x (List.mem_cons_of_mem _ hx)) c htl

end RunCmd

open PackageSpecifier VenvMod

/-- C1: For every input string, the specifier parser tries the three forms in
a fixed order — PEP508 requirement first, then URL, then existing local path
(with a trailing `[extras]` suffix split off before the path check) — returns
the first form that matches, and raises a parse error
("Unable to parse package spec") exactly when none of the three forms
matches. -/
theorem c1_parse_specifier_first_match_wins
    (validReq pathExists : String → Bool) (resolvePath : String → String)
    (spec : String) :
    (validReq spec = true →
      parse_specifier validReq pathExists resolvePath spec =
        Except.ok ⟨some spec, none, none⟩)
    ∧ (validReq spec = false →
        validReq ("notapackagename @ " ++ spec) = true →
        parse_specifier validReq pathExists resolvePath spec =
          Except.ok ⟨none, some spec, none⟩)
    ∧ (validReq spec = false →
        validReq ("notapackagename @ " ++ spec) = false →
        pathExists (split_path_extras spec).1 = true →
        parse_specifier validReq pathExists resolvePath spec =
          Except.ok ⟨none, none,
            some (resolvePath (split_path_extras spec).1 ++ (split_path_extras spec).2)⟩)
    ∧ (parse_specifier validReq pathExists resolvePath spec =
        Except.error ("Unable to parse package spec: " ++ spec) ↔
        validReq spec = false ∧ validReq ("notapackagename @ " ++ spec) = false ∧
          pathExists (split_path_extras spec).1 = false) := by
  cases h1 : validReq spec <;>
    cases h2 : validReq ("notapackagename @ " ++ spec) <;>
      cases h3 : pathExists (split_path_extras spec).1 <;>
        simp [parse_specifier, h1, h2, h3]

theorem c1_parse_specifier_first_match_wins_witness :
    parse_specifier (fun s => s == "pkgA") (fun _ => false) id "pkgA" =
      Except.ok ⟨some "pkgA", none, none⟩
    ∧ parse_specifier (fun _ => false) (fun _ => false) id "not a/valid??spec" =
      Except.error ("Unable to parse package spec: " ++ "not a/valid??spec") :=
  ⟨(c1_parse_specifier_first_match_wins (fun s => s == "pkgA") (fun _ => false) id
      "pkgA").1 (by decide),
   (c1_parse_specifier_first_match_wins (fun _ => false) (fun _ => false) id
      "not a/valid??spec").2.2.2.mpr ⟨rfl, rfl, rfl⟩⟩

/-- C2: If any exception (including a non-zero installer exit) occurs during
`create_venv` or `install_package` inside the install command, the environment
directory that this install invocation created is removed before the error
propagates, so afterwards that directory no longer exists and no entry for
the package appears in the registry (the registry being the listing of
subdirectories of the venv root). -/
theorem c2_install_failure_rolls_back_venv (w : World) (venv_name : String)
    (force : Bool) (o : InstallCmd.Oracles)
    (hpre : exists_nonempty w venv_name = false)
    (hfail : o.create_ok = false ∨ (o.create_ok = true ∧ o.install_ok = false)) :
    dir_present (InstallCmd.install w venv_name force o).1 venv_name = false
    ∧ venv_name ∉ registry (InstallCmd.install w venv_name force o).1
    ∧ ∃ s, (InstallCmd.install w venv_name force o).2 =
        InstallCmd.InstallResult.raised s := by
  have hres : (InstallCmd.install w venv_name force o).1 =
      rmdir (mk_nonempty_dir w venv_name) venv_name
      ∧ ∃ s, (InstallCmd.install w venv_name force o).2 =
          InstallCmd.InstallResult.raised s := by
    rcases hfail with hc | ⟨hc, hi⟩
    · simp [InstallCmd.install, hpre, hc, Venv.make, Venv.remove_venv,
        Venv.safe_to_remove]
    · simp [InstallCmd.install, hpre, hc, hi, Venv.make, Venv.remove_venv,
        Venv.safe_to_remove]
  refine ⟨?_, ?_, hres.2⟩
  · rw [hres.1]; exact dir_present_rmdir_self _ _
  · rw [hres.1]; exact not_mem_registry_rmdir _ _

theorem c2_install_failure_rolls_back_venv_witness :
    dir_present (InstallCmd.install [] "app" false ⟨true, false, true⟩).1 "app" = false
    ∧ "app" ∉ registry (InstallCmd.install [] "app" false ⟨true, false, true⟩).1
    ∧ ∃ s, (InstallCmd.install [] "app" false ⟨true, false, true⟩).2 =
        InstallCmd.InstallResult.raised s :=
  c2_install_failure_rolls_back_venv [] "app" false ⟨true, false, true⟩ (by decide)
    (Or.inr ⟨rfl, rfl⟩)

/-- C4: For every Environment whose root directory existed and was non-empty
at the moment the Environment object was constructed (the "pre-existed" flag
is true), `remove_venv` leaves the root directory and its contents unchanged
(it only logs a warning); the directory tree is deleted only when the
pre-existed flag is false (and then other directories are untouched). -/
theorem c4_remove_venv_preexisting_guard (w : World) (path : String) :
    ((Venv.make w path).existing = true → (Venv.make w path).remove_venv w = w)
    ∧ ((Venv.make w path).existing = false →
        dir_present ((Venv.make w path).remove_venv w) path = false
        ∧ ∀ m, m ≠ path →
            ((Venv.make w path).remove_venv w).lookup m = w.lookup m) := by
  constructor
  · intro h
    simp [Venv.remove_venv, Venv.safe_to_remove, h]
  · intro h
    have : (Venv.make w path).remove_venv w = rmdir w path := by
      simp [Venv.remove_venv, Venv.safe_to_remove, h, Venv.make] at h ⊢
      simp [Venv.make, h]
    rw [this]
    exact ⟨dir_present_rmdir_self w path, fun m hm => lookup_rmdir_other w path m hm⟩

/-- C6: For every SharedEnvironment state, `needs_upgrade` returns true if and
only if the environment has not already been upgraded during the current
process run AND (the installer (pip) binary is missing OR the age of the
marker file's modification time exceeds the 30-day staleness threshold); in
particular it always returns false after a successful upgrade in the same run
(`pip_ok = true` and no raised provisioning error model success). -/
theorem c6_needs_upgrade_characterization (st : SharedLibsMod.SharedState)
    (t now : Int) (venv_ok : Bool) (freeze_out : String)
    (st2 : SharedLibsMod.SharedState) (effs : List SharedLibsMod.Effect)
    (hup : SharedLibsMod.upgrade st venv_ok true freeze_out now =
      Except.ok (st2, effs)) :
    (SharedLibsMod.needs_upgrade st t = true ↔
      st.has_been_updated_this_run = false ∧
        (st.pip_exists = false ∨
          t - st.pip_mtime > SharedLibsMod.SHARED_LIBS_MAX_AGE_SEC))
    ∧ SharedLibsMod.needs_upgrade st2 t = false := by
  refine ⟨?_, ?_⟩
  · cases hb : st.has_been_updated_this_run <;> cases hp : st.pip_exists <;>
      simp [SharedLibsMod.needs_upgrade, hb, hp]
  · have h2 : st2.has_been_updated_this_run = true := by
      cases hb : st.has_been_updated_this_run
      · cases hpy : st.python_exists
        · cases hv : venv_ok
          · exfalso
            simp [SharedLibsMod.upgrade, SharedLibsMod.create, SharedLibsMod.is_valid,
              hb, hpy, hv] at hup
          · simp [SharedLibsMod.upgrade, SharedLibsMod.create, SharedLibsMod.is_valid,
              hb, hpy, hv, SharedLibsMod.upgrade_body] at hup
            rw [← hup.1]
        · simp [SharedLibsMod.upgrade, hb, hpy, SharedLibsMod.upgrade_body] at hup
          rw [← hup.1]
      · simp [SharedLibsMod.upgrade, hb] at hup
        rw [← hup.1, hb]
    simp [SharedLibsMod.needs_upgrade, h2]

theorem c6_needs_upgrade_characterization_witness :
    (SharedLibsMod.needs_upgrade ⟨false, true, true, 0, none⟩ 9999999 = true ↔
      (⟨false, true, true, 0, none⟩ : SharedLibsMod.SharedState).has_been_updated_this_run = false ∧
        ((⟨false, true, true, 0, none⟩ : SharedLibsMod.SharedState).pip_exists = false ∨
          9999999 - (⟨false, true, true, 0, none⟩ : SharedLibsMod.SharedState).pip_mtime >
            SharedLibsMod.SHARED_LIBS_MAX_AGE_SEC))
    ∧ SharedLibsMod.needs_upgrade ⟨true, true, true, 5, some "pipfreeze"⟩ 9999999 = false :=
  c6_needs_upgrade_characterization ⟨false, true, true, 0, none⟩ 9999999 5 true
    "pipfreeze" ⟨true, true, true, 5, some "pipfreeze"⟩
    [SharedLibsMod.Effect.pip_install_upgrade] rfl

/-- C7: `SharedEnvironment.create` is a no-op (performs no subprocess call and
no filesystem mutation) whenever `is_valid` holds, where `is_valid` holds if
and only if the shared environment's interpreter binary and installer (pip)
binary both exist on disk AND the manifest file lists every required baseline
package name (pip, wheel, packaging, importlib-metadata, setuptools). -/
theorem c7_create_noop_when_valid (st : SharedLibsMod.SharedState)
    (venv_ok pip_ok : Bool) (freeze_out : String) (now : Int) :
    (SharedLibsMod.is_valid st = true →
      SharedLibsMod.create st venv_ok pip_ok freeze_out now = Except.ok (st, []))
    ∧ (SharedLibsMod.is_valid st = true ↔
        st.python_exists = true ∧ st.pip_exists = true ∧
          ∃ s, st.manifest = some s ∧
            ∀ r ∈ SharedLibsMod.required_packages,
              r ∈ (Util.splitOnCh '\n' s.toList).map
                    (fun x => String.mk (Util.takeBefore2 '=' '=' x))) := by
  constructor
  · intro h
    simp [SharedLibsMod.create, h]
  · cases hm : st.manifest with
    | none =>
      simp [SharedLibsMod.is_valid, SharedLibsMod.test_has_required_packages, hm]
    | some s =>
      simp only [SharedLibsMod.is_valid, SharedLibsMod.test_has_required_packages, hm,
        Bool.and_eq_true, List.all_eq_true, Option.some.injEq]
      constructor
      · rintro ⟨⟨hpy, hpip⟩, hall⟩
        refine ⟨hpy, hpip, s, rfl, fun r hr => ?_⟩
        have := hall r hr
        simpa [List.contains] using this
      · rintro ⟨hpy, hpip, s2, hs2, hall⟩
        cases hs2
        exact ⟨⟨hpy, hpip⟩, fun r hr => by simpa [List.contains] using hall r hr⟩

theorem c7_create_noop_when_valid_witness :
    SharedLibsMod.create
      ⟨false, true, true, 0,
        some "pip==20.1.1\nwheel==0.34.2\npackaging==20.4\nimportlib-metadata==1.7.0\nsetuptools==49.2.0"⟩
      true true "freeze" 5 =
    Except.ok
      (⟨false, true, true, 0,
        some "pip==20.1.1\nwheel==0.34.2\npackaging==20.4\nimportlib-metadata==1.7.0\nsetuptools==49.2.0"⟩,
       []) :=
  (c7_create_noop_when_valid
    ⟨false, true, true, 0,
      some "pip==20.1.1\nwheel==0.34.2\npackaging==20.4\nimportlib-metadata==1.7.0\nsetuptools==49.2.0"⟩
    true true "freeze" 5).1 (by decide)

/-- C3 counterexample: the claim says reading the metadata file "when it is
missing or its contents are corrupt never raises an exception to the caller".
The source catches only `IOError`; for a file that is present but whose
contents fail to decode (`json_load` raises, as `json.load` does on corrupt
JSON), `read` propagates the exception instead of resetting to the default
sentinel. -/
theorem c3_corrupt_file_raises_counterexample :
    PipxrcMod.read (fun _ => Except.error PipxrcMod.JsonErr.mk)
      (some "corrupt contents") = Except.error PipxrcMod.JsonErr.mk
    ∧ Except.error PipxrcMod.JsonErr.mk ≠
        (Except.ok PipxrcMod.PipxrcInfo.default :
          Except PipxrcMod.JsonErr PipxrcMod.PipxrcInfo) :=
  ⟨rfl, by simp⟩

/-- C3 (amended): reading the persisted metadata file when it is missing or
unreadable at the OS level (`IOError`) never raises: the read resets the
in-memory metadata to the default sentinel state (all fields None, "legacy
installation, unknown details"), and every getter then supplies the
caller-provided default.  Corrupt contents, however, raise to the caller:
only `IOError` is caught, so a `json.load` decoding failure propagates. -/
theorem c3_read_missing_resets_and_corrupt_raises
    (json_load : String → Except PipxrcMod.JsonErr PipxrcMod.PipxrcInfo)
    (s d1 : String) (d2 d3 : List String) (d4 : Bool)
    (d5 : PipxrcMod.PipxVenvMetadata)
    (d6 : List (String × PipxrcMod.InjectedPackage))
    (e : PipxrcMod.JsonErr) (hcorrupt : json_load s = Except.error e) :
    PipxrcMod.read json_load none = Except.ok PipxrcMod.PipxrcInfo.default
    ∧ PipxrcMod.get_package_or_url PipxrcMod.PipxrcInfo.default d1 = d1
    ∧ PipxrcMod.get_install_pip_args PipxrcMod.PipxrcInfo.default d2 = d2
    ∧ PipxrcMod.get_install_venv_args PipxrcMod.PipxrcInfo.default d3 = d3
    ∧ PipxrcMod.get_install_include_dependencies PipxrcMod.PipxrcInfo.default d4 = d4
    ∧ PipxrcMod.get_venv_metadata PipxrcMod.PipxrcInfo.default d5 = d5
    ∧ PipxrcMod.get_injected_packages PipxrcMod.PipxrcInfo.default d6 = d6
    ∧ PipxrcMod.read json_load (some s) = Except.error e := by
  refine ⟨rfl, rfl, rfl, rfl, rfl, rfl, rfl, ?_⟩
  simp [PipxrcMod.read, hcorrupt]

theorem c3_read_missing_resets_and_corrupt_raises_witness :
    PipxrcMod.read (fun _ => Except.error PipxrcMod.JsonErr.mk) none =
      Except.ok PipxrcMod.PipxrcInfo.default
    ∧ PipxrcMod.get_package_or_url PipxrcMod.PipxrcInfo.default "pycowsay" = "pycowsay"
    ∧ PipxrcMod.get_install_pip_args PipxrcMod.PipxrcInfo.default ["-q"] = ["-q"]
    ∧ PipxrcMod.get_install_venv_args PipxrcMod.PipxrcInfo.default [] = []
    ∧ PipxrcMod.get_install_include_dependencies PipxrcMod.PipxrcInfo.default false = false
    ∧ PipxrcMod.get_venv_metadata PipxrcMod.PipxrcInfo.default
        ⟨[], [], [], [], "", ""⟩ = ⟨[], [], [], [], "", ""⟩
    ∧ PipxrcMod.get_injected_packages PipxrcMod.PipxrcInfo.default [] = []
    ∧ PipxrcMod.read (fun _ => Except.error PipxrcMod.JsonErr.mk) (some "bad") =
        Except.error PipxrcMod.JsonErr.mk :=
  c3_read_missing_resets_and_corrupt_raises
    (fun _ => Except.error PipxrcMod.JsonErr.mk) "bad" "pycowsay" ["-q"] [] false
    ⟨[], [], [], [], "", ""⟩ [] PipxrcMod.JsonErr.mk rfl

/-- C5 counterexample: the claim says a failure raised while processing one
environment in a bulk operation "is caught and reported without aborting the
processing of the remaining environments".  In src/pipx/main.py the
`upgrade_all` loop has no try/except: with two registered environments where
the first one's pip subprocess fails, only the first is processed, the second
is never visited, and the exception propagates out of `upgrade_all`. -/
theorem c5_bulk_failure_not_caught_counterexample :
    (Main.upgrade_all
        [("a", ⟨true, some "1.0", false, some "1.0"⟩),
         ("b", ⟨true, some "1.0", true, some "1.0"⟩)]).1 = ["a"]
    ∧ (["a"] : List String) ≠ ["a", "b"]
    ∧ (Main.upgrade_all
        [("a", ⟨true, some "1.0", false, some "1.0"⟩),
         ("b", ⟨true, some "1.0", true, some "1.0"⟩)]).2 =
      Except.error "pip upgrade command failed" :=
  ⟨rfl, by decide, rfl⟩

theorem upgrade_error_flag_independent (n : String) (e : Main.UpgradeEnv)
    (m : String) (hm : Main.upgrade n e true = Except.error m) :
    ∃ m2, Main.upgrade n e false = Except.error m2 := by
  by_cases hd : e.is_dir
  · by_cases hp : e.pip_ok
    · exfalso
      cases hv : (e.old_version == e.new_version) <;>
        simp [Main.upgrade, hd, hp, hv] at hm
    · exact ⟨"pip upgrade command failed", by simp [Main.upgrade, hd, hp]⟩
  · exact ⟨"Package is not installed. Expected to find " ++ n,
      by simp [Main.upgrade, hd]⟩

/-- C5 (amended): bulk operations (`upgrade-all`, `uninstall-all`) process
environments strictly one at a time in directory-listing order, but a failure
raised while processing one environment is NOT caught: it propagates and
aborts the bulk command, leaving the remaining environments unprocessed —
the same way the failure aborts a single-target operation.  When every
environment succeeds, all environments are processed in order. -/
theorem c5_bulk_ops_sequential_but_aborting
    (pre post : List (String × Main.UpgradeEnv)) (n : String)
    (e : Main.UpgradeEnv) (upre upost : List (String × Bool)) (un : String)
    (hpre : ∀ p ∈ pre, ∃ r, Main.upgrade p.1 p.2 true = Except.ok r)
    (hfail : ∃ m, Main.upgrade n e true = Except.error m)
    (hupre : ∀ p ∈ upre, p.2 = true) :
    (Main.upgrade_all (pre ++ (n, e) :: post)).1 = pre.map Prod.fst ++ [n]
    ∧ (∃ m, (Main.upgrade_all (pre ++ (n, e) :: post)).2 = Except.error m)
    ∧ (Main.upgrade_all pre).1 = pre.map Prod.fst
    ∧ (∃ m, Main.upgrade n e false = Except.error m)
    ∧ (Main.uninstall_all (upre ++ (un, false) :: upost)).1 =
        upre.map Prod.fst ++ [un]
    ∧ (∃ m, (Main.uninstall_all (upre ++ (un, false) :: upost)).2 =
        Except.error m) := by
  obtain ⟨m, hm⟩ := hfail
  have hhead : Main.upgrade_all ((n, e) :: post) = ([n], Except.error m) := by
    simp [Main.upgrade_all, hm]
  obtain ⟨hap1, hap2⟩ := Main.upgrade_all_processed_append pre ((n, e) :: post) hpre
  have huhead : Main.uninstall_all ((un, false) :: upost) =
      ([un], Except.error ("rmtree failed for " ++ un)) := by
    simp [Main.uninstall_all, Main.uninstall]
  obtain ⟨hu1, hu2⟩ := Main.uninstall_all_processed_append upre ((un, false) :: upost)
    hupre
  refine ⟨?_, ⟨m, ?_⟩, Main.upgrade_all_all_ok pre hpre,
    upgrade_error_flag_independent n e m hm, ?_,
    ⟨"rmtree failed for " ++ un, ?_⟩⟩
  · rw [hap1, hhead]
  · exact hap2 m (by rw [hhead])
  · rw [hu1, huhead]
  · rw [hu2, huhead]

theorem c5_bulk_ops_sequential_but_aborting_witness :
    (Main.upgrade_all
        [("a", ⟨true, some "1.0", true, some "2.0"⟩),
         ("b", ⟨true, some "1.0", false, some "1.0"⟩)]).1 = ["a"] ++ ["b"]
    ∧ (∃ m, (Main.upgrade_all
        [("a", ⟨true, some "1.0", true, some "2.0"⟩),
         ("b", ⟨true, some "1.0", false, some "1.0"⟩)]).2 = Except.error m)
    ∧ (Main.upgrade_all [("a", ⟨true, some "1.0", true, some "2.0"⟩)]).1 = ["a"]
    ∧ (∃ m, Main.upgrade "b" ⟨true, some "1.0", false, some "1.0"⟩ false =
        Except.error m)
    ∧ (Main.uninstall_all [("u1", true), ("u2", false)]).1 = ["u1"] ++ ["u2"]
    ∧ (∃ m, (Main.uninstall_all [("u1", true), ("u2", false)]).2 =
        Except.error m) :=
  c5_bulk_ops_sequential_but_aborting
    [("a", ⟨true, some "1.0", true, some "2.0"⟩)] []
    "b" ⟨true, some "1.0", false, some "1.0"⟩
    [("u1", true)] [] "u2"
    (by
      intro p hp
      rw [List.mem_singleton] at hp
      subst hp
      exact ⟨_, rfl⟩)
    ⟨"pip upgrade command failed", rfl⟩
    (by decide)

/-- C9: For every installed package, when the upgrade operation finds the
installed version unchanged after running the installer (old version equals
new version), it reports that the package is already at the latest version
and returns without calling the shim-exposure step (`exposed = false`), so
the global bin directory is not modified. -/
theorem c9_upgrade_unchanged_reports_and_skips_expose (pkg : String)
    (e : Main.UpgradeEnv) (hdir : e.is_dir = true) (hpip : e.pip_ok = true)
    (hsame : e.old_version = e.new_version) :
    Main.upgrade pkg e false =
      Except.ok ⟨[Main.Msg.already_latest pkg], false, 0⟩ := by
  simp [Main.upgrade, hdir, hpip, hsame]

/-- C10: The cached venv directory used by the run command is a deterministic
pure function of exactly (package_or_url, python interpreter string, pip_args
concatenation, venv_args concatenation): two invocations with equal values of
this quadruple map to the same 15-hex-character directory name under the
cache root, and the application arguments passed to the app never influence
the chosen directory. -/
theorem c10_cached_venv_path_pure_function (sha256 : String → List Nat)
    (cachedir p1 py1 p2 py2 : String) (pip1 v1 pip2 v2 a1 a2 : List String)
    (hlen : (sha256 (p1 ++ py1 ++ String.join pip1 ++ String.join v1)).length = 32)
    (hbytes : ∀ b ∈ sha256 (p1 ++ py1 ++ String.join pip1 ++ String.join v1),
      b < 256)
    (heq : p1 ++ py1 ++ String.join pip1 ++ String.join v1 =
      p2 ++ py2 ++ String.join pip2 ++ String.join v2) :
    RunCmd.run_choose_venv_dir sha256 cachedir p1 py1 pip1 v1 a1 =
      RunCmd.run_choose_venv_dir sha256 cachedir p2 py2 pip2 v2 a2
    ∧ ∃ name : String,
        RunCmd.run_choose_venv_dir sha256 cachedir p1 py1 pip1 v1 a1 =
          cachedir ++ "/" ++ name
        ∧ name.length = 15
        ∧ ∀ c ∈ name.toList, c ∈ RunCmd.hex_chars := by
  constructor
  · simp only [RunCmd.run_choose_venv_dir, RunCmd.get_temporary_venv_path, heq]
  · refine ⟨String.mk ((RunCmd.hexdigest
      (sha256 (p1 ++ py1 ++ String.join pip1 ++ String.join v1))).take 15),
      rfl, ?_, ?_⟩
    · show (List.take 15 _).length = 15
      rw [List.length_take, RunCmd.hexdigest_length, hlen]
      norm_num
    · intro c hc
      have hc2 : c ∈ RunCmd.hexdigest
          (sha256 (p1 ++ py1 ++ String.join pip1 ++ String.join v1)) :=
        List.mem_of_mem_take hc
      exact RunCmd.hexdigest_mem _ hbytes c hc2

theorem c10_cached_venv_path_pure_function_witness :
    RunCmd.run_choose_venv_dir (fun _ => List.replicate 32 0) "/cache"
        "pycowsay" "python3" ["--no", "-cache"] [] ["--some-app-arg"] =
      RunCmd.run_choose_venv_dir (fun _ => List.replicate 32 0) "/cache"
        "pycowsay" "python3" ["--no-cache"] [] []
    ∧ ∃ name : String,
        RunCmd.run_choose_venv_dir (fun _ => List.replicate 32 0) "/cache"
          "pycowsay" "python3" ["--no", "-cache"] [] ["--some-app-arg"] =
          "/cache" ++ "/" ++ name
        ∧ name.length = 15
        ∧ ∀ c ∈ name.toList, c ∈ RunCmd.hex_chars :=
  c10_cached_venv_path_pure_function (fun _ => List.replicate 32 0) "/cache"
    "pycowsay" "python3" "pycowsay" "python3"
    ["--no", "-cache"] [] ["--no-cache"] [] ["--some-app-arg"] []
    (by simp)
    (by
      intro b hb
      rw [List.eq_of_mem_replicate hb]
      omega)
    (by decide)

/-- C8 counterexample: the claim's final consequence — "calling expose twice
in succession with identical app paths produces no filesystem change and no
conflict warning on the second call" — fails when a destination already
conflicts before the first call.  With a user-created regular file `x` in the
bin directory and one app path `/v/bin/x`, exposing leaves the directory
unchanged and warns; because the resulting directory equals the input
directory, the equation below is simultaneously the first and the second
call, and its warning list contains a conflict warning. -/
theorem c8_second_call_conflict_counterexample :
    ShimMod.symlink_package_binaries (fun _ => false) ["/v/bin/x"]
      [("x", ShimMod.BinEntry.file)] ["/v/bin/x"] =
      Except.ok ([("x", ShimMod.BinEntry.file)], [ShimMod.Warning.conflict "x"])
    ∧ ¬ (∀ x ∈ [ShimMod.Warning.conflict "x"], x.isConflict = false) :=
  ⟨rfl, by decide⟩

/-- C8 (amended): on symlink-based platforms, for every destination path in
the shared bin directory that already exists when expose runs, expose leaves
that filesystem entry unchanged (same-target ⇒ silent no-op; points-elsewhere
⇒ skip with a warning, nothing overwritten); consequently calling expose
twice in succession with identical app paths produces no filesystem change on
the second call, and the second call emits only conflict warnings that the
first call already emitted — in particular, none at all when the first call
emitted no conflict warning. -/
theorem c8_expose_preserves_and_second_call_repeats_conflicts_only
    (wf : String → Bool) (real : List String) (d d1 : ShimMod.BinDir)
    (bs : List String) (w1 : List ShimMod.Warning)
    (hreal : ∀ b ∈ bs, real.contains b = true)
    (h1 : ShimMod.symlink_package_binaries wf real d bs = Except.ok (d1, w1)) :
    (∀ name e, d.lookup name = some e → d1.lookup name = some e)
    ∧ ∃ w2, ShimMod.symlink_package_binaries wf real d1 bs = Except.ok (d1, w2)
        ∧ (∀ x ∈ w2, x.isConflict = true)
        ∧ (∀ x ∈ w2, x ∈ w1)
        ∧ ((∀ x ∈ w1, x.isConflict = false) → w2 = []) := by
  have hmono : ∀ name e, d.lookup name = some e → d1.lookup name = some e :=
    fun name e hl => ShimMod.symlink_lookup_mono wf real bs d d1 w1 h1 name e hl
  have hcov := ShimMod.symlink_coverage wf real bs d d1 w1 h1 hreal
  obtain ⟨w2, hw2, hprop⟩ :=
    ShimMod.symlink_fixpoint wf real bs d1 (fun b hb => (hcov b hb).1)
  have hsub : ∀ x ∈ w2, x ∈ w1 := by
    intro x hx
    obtain ⟨b, hb, hform, hsame⟩ := hprop x hx
    rcases (hcov b hb).2 with hsf | hcf
    · rw [hsf] at hsame
      exact Bool.noConfusion hsame
    · rw [hform]
      exact hcf
  refine ⟨hmono, w2, hw2, ?_, hsub, ?_⟩
  · intro x hx
    obtain ⟨b, _, hform, _⟩ := hprop x hx
    rw [hform]
    rfl
  · intro hnoc
    rcases List.eq_nil_or_concat w2 with hnil | ⟨_, x, _⟩
    · exact hnil
    · exfalso
      have hxmem : x ∈ w2 := by
        rename_i heq
        rw [heq, List.concat_eq_append]
        exact List.mem_append_right _ (List.mem_singleton_self _)
      obtain ⟨b, _, hform, _⟩ := hprop x hxmem
      have := hnoc x (hsub x hxmem)
      rw [hform] at this
      exact Bool.noConfusion this

theorem c8_expose_preserves_and_second_call_repeats_conflicts_only_witness :
    ((∀ name e, ([] : ShimMod.BinDir).lookup name = some e →
        ([("x", ShimMod.BinEntry.link "/v/bin/x")] : ShimMod.BinDir).lookup name =
          some e)
    ∧ ∃ w2, ShimMod.symlink_package_binaries (fun _ => false) ["/v/bin/x"]
          [("x", ShimMod.BinEntry.link "/v/bin/x")] ["/v/bin/x"] =
          Except.ok ([("x", ShimMod.BinEntry.link "/v/bin/x")], w2)
        ∧ (∀ x ∈ w2, x.isConflict = true)
        ∧ (∀ x ∈ w2, x ∈ ([] : List ShimMod.Warning))
        ∧ ((∀ x ∈ ([] : List ShimMod.Warning), x.isConflict = false) → w2 = [])) :=
  c8_expose_preserves_and_second_call_repeats_conflicts_only
    (fun _ => false) ["/v/bin/x"] [] [("x", ShimMod.BinEntry.link "/v/bin/x")]
    ["/v/bin/x"] [] (by decide) rfl

theorem c9_upgrade_unchanged_reports_and_skips_expose_witness :
    Main.upgrade "pycowsay" ⟨true, some "2.0", true, some "2.0"⟩ false =
      Except.ok ⟨[Main.Msg.already_latest "pycowsay"], false, 0⟩ :=
  c9_upgrade_unchanged_reports_and_skips_expose "pycowsay"
    ⟨true, some "2.0", true, some "2.0"⟩ rfl rfl rfl

theorem c4_remove_venv_preexisting_guard_witness :
    (Venv.make [("pkgdir", true)] "pkgdir").remove_venv [("pkgdir", true)] =
      [("pkgdir", true)]
    ∧ dir_present ((Venv.make [("pkgdir", true)] "newpkg").remove_venv
        [("pkgdir", true)]) "newpkg" = false :=
  ⟨(c4_remove_venv_preexisting_guard [("pkgdir", true)] "pkgdir").1 (by decide),
   ((c4_remove_venv_preexisting_guard [("pkgdir", true)] "newpkg").2 (by decide)).1⟩

end Pipx
